import Mathlib

/-!
Shallow embedding of the Water Buddy hydration engine
(profile / goal calculator / aggregator / predictor / badge evaluator /
reminder scheduler) and proofs of the specified properties.

Numeric conventions of the embedding:
* Python floats are modelled as exact rationals (`ℚ`); every constant the
  code uses (0.95, 1.2, 0.9, 1.25, 1.10, 0.75, 0.7, 35, ...) is an exact
  decimal, so the modelled arithmetic matches the source formulas.
* Python `int(x)` truncates toward zero; it is modelled by `pyInt`.
* Timestamps (`logged_at`, `created_at`) are integers measured in
  microseconds; a calendar day `d` covers the half-open-by-granularity
  range `[d * usPerDay, d * usPerDay + (usPerDay - 1)]`, mirroring the SQL
  `BETWEEN start-of-day AND end-of-day` comparison on ISO strings.
-/

namespace WaterBuddy

/-- Python `int(x)` on a real value: truncation toward zero. -/
def pyInt (q : ℚ) : ℤ := if q < 0 then ⌈q⌉ else ⌊q⌋

/-- `BASE_ML_PER_KG = 35` (ml per kg base guideline). -/
def BASE_ML_PER_KG : ℚ := 35

/-- Activity multiplier step of `calculate_goal_ml`:
`if activity == 'low': m *= 0.95 elif activity == 'high': m *= 1.2`. -/
def activityFactor (activity : String) : ℚ :=
  if activity = "low" then 0.95 else if activity = "high" then 1.2 else 1

/-- Age multiplier step of `calculate_goal_ml`:
`if age and age >= 65: m *= 0.9` — note Python truthiness of `age`
(`None` and `0` are falsy). -/
def ageFactor (age : Option ℤ) : ℚ :=
  match age with
  | some a => if a ≠ 0 ∧ 65 ≤ a then 0.9 else 1
  | none => 1

/-- Temperature multiplier step of `calculate_goal_ml`:
`if weather_temp_c is not None: if t >= 30: m *= 1.25 elif t >= 25: m *= 1.10`. -/
def tempFactor (weather_temp_c : Option ℚ) : ℚ :=
  match weather_temp_c with
  | some t => if 30 ≤ t then 1.25 else if 25 ≤ t then 1.1 else 1
  | none => 1

/-- `calculate_goal_ml(weight_kg, age=None, activity='normal', weather_temp_c=None)`:
`base = weight_kg * BASE_ML_PER_KG`, multiplier accumulated by the three
steps above, result `int(base * multiplier)`. -/
def calculate_goal_ml (weight_kg : ℚ) (age : Option ℤ) (activity : String)
    (weather_temp_c : Option ℚ) : ℤ :=
  pyInt (weight_kg * BASE_ML_PER_KG *
    (activityFactor activity * ageFactor age * tempFactor weather_temp_c))

/-- The multiplier exactly as the specification words it (age ≥ 65 without
the Python truthiness guard); used to compare spec against code. -/
def specMultiplier (age : ℤ) (activity : String) (temp : Option ℚ) : ℚ :=
  (if activity = "low" then 0.95 else if activity = "high" then 1.2 else 1) *
  (if 65 ≤ age then 0.9 else 1) *
  (match temp with
   | some t => if 30 ≤ t then 1.25 else if 25 ≤ t then 1.1 else 1
   | none => 1)

lemma activityFactor_pos (a : String) : 0 < activityFactor a := by
  unfold activityFactor; split_ifs <;> norm_num

lemma ageFactor_pos (a : Option ℤ) : 0 < ageFactor a := by
  cases a with
  | none => norm_num [ageFactor]
  | some x =>
    simp only [ageFactor]
    split_ifs <;> norm_num

lemma tempFactor_pos (t : Option ℚ) : 0 < tempFactor t := by
  cases t with
  | none => norm_num [tempFactor]
  | some x =>
    simp only [tempFactor]
    split_ifs <;> norm_num

lemma pyInt_of_nonneg (q : ℚ) (h : 0 ≤ q) : pyInt q = ⌊q⌋ := by
  unfold pyInt
  split_ifs with hlt
  · exact absurd hlt (not_lt.mpr h)
  · rfl

lemma pyInt_mono {q1 q2 : ℚ} (h : q1 ≤ q2) : pyInt q1 ≤ pyInt q2 := by
  unfold pyInt
  split_ifs with h1 h2 h2
  · exact Int.ceil_le_ceil h
  · calc ⌈q1⌉ ≤ 0 := Int.ceil_le.mpr (by exact_mod_cast h1.le)
      _ ≤ ⌊q2⌋ := Int.floor_nonneg.mpr (not_lt.mp h2)
  · exact absurd (lt_of_le_of_lt h h2) h1
  · exact Int.floor_le_floor h

/-- C1: for positive weight, nonnegative age and a recognised activity
level, `calculate_goal_ml` is the floor of `weight * 35 * m` with `m` the
stacked multiplier described by the spec; the three pinned scenarios hold. -/
theorem goal_formula (w : ℚ) (a : ℤ) (act : String) (temp : Option ℚ)
    (hw : 0 < w) (ha : 0 ≤ a)
    (hact : act = "low" ∨ act = "normal" ∨ act = "high") :
    calculate_goal_ml w (some a) act temp = ⌊w * 35 * specMultiplier a act temp⌋ ∧
    calculate_goal_ml 70 (some 30) "normal" none = 2450 ∧
    calculate_goal_ml 70 (some 30) "high" none = 2940 ∧
    calculate_goal_ml 70 (some 70) "low" none = 2094 := by
  refine ⟨?_, ?sc1, ?sc2, ?sc3⟩
  case sc1 =>
    norm_num [calculate_goal_ml, BASE_ML_PER_KG, pyInt,
      show activityFactor "normal" = 1 from rfl,
      show ageFactor (some 30) = 1 from rfl,
      show tempFactor none = 1 from rfl]
  case sc2 =>
    norm_num [calculate_goal_ml, BASE_ML_PER_KG, pyInt,
      show activityFactor "high" = 1.2 from rfl,
      show ageFactor (some 30) = 1 from rfl,
      show tempFactor none = 1 from rfl]
  case sc3 =>
    norm_num [calculate_goal_ml, BASE_ML_PER_KG, pyInt,
      show activityFactor "low" = 0.95 from rfl,
      show ageFactor (some 70) = 0.9 from rfl,
      show tempFactor none = 1 from rfl]
  have hmult : activityFactor act * ageFactor (some a) * tempFactor temp =
      specMultiplier a act temp := by
    unfold specMultiplier activityFactor ageFactor tempFactor
    congr 1
    congr 1
    by_cases h65 : 65 ≤ a
    · have : a ≠ 0 := by omega
      simp [h65, this]
    · simp [h65]
  have hpos : 0 ≤ w * BASE_ML_PER_KG *
      (activityFactor act * ageFactor (some a) * tempFactor temp) := by
    have h1 := activityFactor_pos act
    have h2 := ageFactor_pos (some a)
    have h3 := tempFactor_pos temp
    have : (0:ℚ) < BASE_ML_PER_KG := by norm_num [BASE_ML_PER_KG]
    positivity
  rw [calculate_goal_ml, pyInt_of_nonneg _ hpos, hmult]
  norm_num [BASE_ML_PER_KG]

/-- Witness for `goal_formula` at weight 70, age 30, normal activity. -/
theorem goal_formula_witness :
    (0:ℚ) < 70 ∧ (0:ℤ) ≤ 30 ∧
    calculate_goal_ml 70 (some 30) "normal" none =
      ⌊(70:ℚ) * 35 * specMultiplier 30 "normal" none⌋ := by
  refine ⟨by norm_num, by norm_num, ?_⟩
  exact (goal_formula 70 30 "normal" none (by norm_num) (by norm_num)
    (Or.inr (Or.inl rfl))).1

/-- Rank of an activity level under the order low < normal < high. -/
def actRank (activity : String) : ℕ :=
  if activity = "low" then 0 else if activity = "normal" then 1 else 2

lemma goal_mono_weight (w1 w2 : ℚ) (a : Option ℤ) (act : String)
    (temp : Option ℚ) (hw : w1 ≤ w2) :
    calculate_goal_ml w1 a act temp ≤ calculate_goal_ml w2 a act temp := by
  unfold calculate_goal_ml
  apply pyInt_mono
  have hm : 0 ≤ activityFactor act * ageFactor a * tempFactor temp := by
    have h1 := activityFactor_pos act
    have h2 := ageFactor_pos a
    have h3 := tempFactor_pos temp
    positivity
  have hb : (0:ℚ) ≤ BASE_ML_PER_KG := by norm_num [BASE_ML_PER_KG]
  have := mul_le_mul_of_nonneg_right (mul_le_mul_of_nonneg_right hw hb) hm
  linarith

lemma goal_mono_activity (w : ℚ) (a : Option ℤ) (temp : Option ℚ)
    (act1 act2 : String) (hw : 0 ≤ w)
    (h1 : act1 = "low" ∨ act1 = "normal" ∨ act1 = "high")
    (h2 : act2 = "low" ∨ act2 = "normal" ∨ act2 = "high")
    (hr : actRank act1 ≤ actRank act2) :
    calculate_goal_ml w a act1 temp ≤ calculate_goal_ml w a act2 temp := by
  unfold calculate_goal_ml
  apply pyInt_mono
  have hfact : activityFactor act1 ≤ activityFactor act2 := by
    rcases h1 with rfl | rfl | rfl <;> rcases h2 with rfl | rfl | rfl <;>
      simp_all [actRank, activityFactor] <;> norm_num
  have h2 := ageFactor_pos a
  have h3 := tempFactor_pos temp
  have hb : (0:ℚ) ≤ w * BASE_ML_PER_KG := by
    have : (0:ℚ) ≤ BASE_ML_PER_KG := by norm_num [BASE_ML_PER_KG]
    positivity
  have hmul : activityFactor act1 * ageFactor a * tempFactor temp ≤
      activityFactor act2 * ageFactor a * tempFactor temp := by
    apply mul_le_mul_of_nonneg_right _ h3.le
    exact mul_le_mul_of_nonneg_right hfact h2.le
  exact mul_le_mul_of_nonneg_left hmul hb

/-- C9: the goal is monotone non-decreasing in weight with everything else
fixed, and (on the valid domain of nonnegative weights) monotone
non-decreasing in activity level under low < normal < high. -/
theorem goal_monotone :
    (∀ (w1 w2 : ℚ) (a : Option ℤ) (act : String) (temp : Option ℚ),
      w1 ≤ w2 →
      calculate_goal_ml w1 a act temp ≤ calculate_goal_ml w2 a act temp) ∧
    (∀ (w : ℚ) (a : Option ℤ) (temp : Option ℚ) (act1 act2 : String),
      0 ≤ w →
      act1 = "low" ∨ act1 = "normal" ∨ act1 = "high" →
      act2 = "low" ∨ act2 = "normal" ∨ act2 = "high" →
      actRank act1 ≤ actRank act2 →
      calculate_goal_ml w a act1 temp ≤ calculate_goal_ml w a act2 temp) :=
  ⟨fun w1 w2 a act temp hw => goal_mono_weight w1 w2 a act temp hw,
   fun w a temp act1 act2 hw h1 h2 hr =>
    goal_mono_activity w a temp act1 act2 hw h1 h2 hr⟩

/-- Witness for `goal_monotone` at concrete inputs. -/
theorem goal_monotone_witness :
    calculate_goal_ml 60 (some 30) "normal" none ≤
      calculate_goal_ml 70 (some 30) "normal" none ∧
    calculate_goal_ml 70 (some 30) "low" none ≤
      calculate_goal_ml 70 (some 30) "high" none := by
  constructor
  · exact goal_monotone.1 60 70 (some 30) "normal" none (by norm_num)
  · exact goal_monotone.2 70 (some 30) none "low" "high" (by norm_num)
      (Or.inl rfl) (Or.inr (Or.inr rfl)) (by norm_num [actRank])

/-- A row of the `logs` table: `logged_at` (microsecond timestamp),
`amount_ml`. -/
structure LogEvent where
  logged_at : ℤ
  amount_ml : ℤ
deriving DecidableEq

/-- A derived daily total as produced by `get_totals_for_days`. -/
structure DailyTotal where
  date : ℤ
  total_ml : ℤ
deriving DecidableEq

/-- Microseconds per calendar day. -/
def usPerDay : ℤ := 86400000000

/-- `datetime.combine(d, datetime.min.time())`: first instant of day `d`. -/
def dayStart (d : ℤ) : ℤ := d * usPerDay

/-- `datetime.combine(d, datetime.max.time())`: last representable instant
of day `d`. -/
def dayEnd (d : ℤ) : ℤ := d * usPerDay + (usPerDay - 1)

/-- `SELECT SUM(amount_ml) FROM logs WHERE logged_at BETWEEN lo AND hi`
(with the NULL-to-0 coalescing of `row[0] if row and row[0] else 0`). -/
def sumLogsBetween (lo hi : ℤ) : List LogEvent → ℤ
  | [] => 0
  | e :: rest =>
    (if lo ≤ e.logged_at ∧ e.logged_at ≤ hi then e.amount_ml else 0) +
      sumLogsBetween lo hi rest

/-- The dates visited by the loop `for i in range(days-1, -1, -1): d =
date.today() - timedelta(days=i)`, in visit order. -/
def dayList (n : ℕ) (today : ℤ) : List ℤ :=
  ((List.range n).reverse).map (fun i => today - (i : ℤ))

/-- `get_totals_for_days(days)`: one `DailyTotal` per visited day, oldest
first, each total the summed amounts of that day's events. -/
def get_totals_for_days (days : ℕ) (today : ℤ) (logs : List LogEvent) :
    List DailyTotal :=
  (dayList days today).map (fun d =>
    { date := d, total_ml := sumLogsBetween (dayStart d) (dayEnd d) logs })

/-- `get_today_total()`: today's summed amounts. -/
def get_today_total (today : ℤ) (logs : List LogEvent) : ℤ :=
  sumLogsBetween (dayStart today) (dayEnd today) logs

lemma sumLogsBetween_split (lo m hi : ℤ) (h1 : lo ≤ m + 1) (h2 : m ≤ hi)
    (logs : List LogEvent) :
    sumLogsBetween lo m logs + sumLogsBetween (m + 1) hi logs =
      sumLogsBetween lo hi logs := by
  induction logs with
  | nil => simp [sumLogsBetween]
  | cons e rest ih =>
    simp only [sumLogsBetween]
    have hind : (if lo ≤ e.logged_at ∧ e.logged_at ≤ m then e.amount_ml else 0) +
        (if m + 1 ≤ e.logged_at ∧ e.logged_at ≤ hi then e.amount_ml else 0) =
        (if lo ≤ e.logged_at ∧ e.logged_at ≤ hi then e.amount_ml else 0) := by
      split_ifs <;> omega
    linarith [ih, hind]

lemma sumLogsBetween_eq_zero (lo hi : ℤ) (logs : List LogEvent)
    (h : ∀ e ∈ logs, ¬(lo ≤ e.logged_at ∧ e.logged_at ≤ hi)) :
    sumLogsBetween lo hi logs = 0 := by
  induction logs with
  | nil => rfl
  | cons e rest ih =>
    simp only [sumLogsBetween]
    rw [if_neg (h e (by simp)), ih (fun x hx => h x (by simp [hx]))]
    norm_num

lemma dayList_succ (n : ℕ) (today : ℤ) :
    dayList (n + 1) today = (today - n) :: dayList n today := by
  simp [dayList, List.range_succ]

lemma dayList_length (n : ℕ) (today : ℤ) : (dayList n today).length = n := by
  induction n with
  | zero => rfl
  | succ m ih => rw [dayList_succ, List.length_cons, ih]

lemma dayList_mem (n : ℕ) (today d : ℤ) :
    d ∈ dayList n today ↔ today - n < d ∧ d ≤ today := by
  induction n with
  | zero =>
    rw [show dayList 0 today = [] from rfl]
    simp only [List.not_mem_nil, false_iff]
    push_cast
    omega
  | succ m ih =>
    rw [dayList_succ, List.mem_cons, ih]
    push_cast
    omega

lemma dayList_head (n : ℕ) (today : ℤ) :
    (dayList (n + 1) today).head? = some (today - n) := by
  rw [dayList_succ]; rfl

lemma dayList_chain (n : ℕ) (today : ℤ) :
    List.Chain' (· < ·) (dayList n today) := by
  induction n with
  | zero =>
    rw [show dayList 0 today = [] from rfl]
    exact List.chain'_nil
  | succ m ih =>
    rw [dayList_succ, List.chain'_cons']
    refine ⟨?_, ih⟩
    intro y hy
    cases m with
    | zero =>
      rw [show dayList 0 today = [] from rfl] at hy
      simp at hy
    | succ k =>
      rw [dayList_head] at hy
      simp only [Option.mem_def, Option.some.injEq] at hy
      subst hy
      push_cast
      omega

lemma sum_over_dayList (n : ℕ) (today : ℤ) (logs : List LogEvent) :
    ((dayList (n + 1) today).map
        (fun d => sumLogsBetween (dayStart d) (dayEnd d) logs)).sum =
      sumLogsBetween (dayStart (today - n)) (dayEnd today) logs := by
  induction n with
  | zero =>
    rw [show dayList 1 today = [today - ((0:ℕ) : ℤ)] from rfl]
    push_cast
    simp
  | succ m ih =>
    rw [dayList_succ, List.map_cons, List.sum_cons, ih]
    have hm1 : ((m + 1 : ℕ) : ℤ) = (m : ℤ) + 1 := by push_cast; ring
    rw [hm1]
    have key : dayStart (today - m) = dayEnd (today - ((m : ℤ) + 1)) + 1 := by
      unfold dayStart dayEnd usPerDay; ring
    rw [key]
    apply sumLogsBetween_split
    · unfold dayStart dayEnd usPerDay; omega
    · unfold dayEnd usPerDay; nlinarith [Int.natCast_nonneg m]

/-- C5: `get_totals_for_days n` returns exactly `n` entries, dates strictly
increasing (oldest first) and covering exactly the `n`-day window ending
today; a day with no events totals 0; and the totals sum to the sum of all
event amounts inside the window. -/
theorem daily_totals_spec (n : ℕ) (today : ℤ) (logs : List LogEvent)
    (hn : 1 ≤ n) :
    (get_totals_for_days n today logs).length = n ∧
    List.Chain' (fun a b => a.date < b.date) (get_totals_for_days n today logs) ∧
    (∀ d : ℤ, d ∈ (get_totals_for_days n today logs).map DailyTotal.date ↔
      today - n < d ∧ d ≤ today) ∧
    (∀ dt ∈ get_totals_for_days n today logs,
      (∀ e ∈ logs,
        ¬(dayStart dt.date ≤ e.logged_at ∧ e.logged_at ≤ dayEnd dt.date)) →
      dt.total_ml = 0) ∧
    ((get_totals_for_days n today logs).map DailyTotal.total_ml).sum =
      sumLogsBetween (dayStart (today - n + 1)) (dayEnd today) logs := by
  obtain ⟨m, rfl⟩ : ∃ m, n = m + 1 := ⟨n - 1, by omega⟩
  refine ⟨?_, ?_, ?_, ?_, ?_⟩
  · simp [get_totals_for_days, dayList_length]
  · unfold get_totals_for_days
    rw [List.chain'_map]
    exact dayList_chain _ _
  · intro d
    unfold get_totals_for_days
    rw [List.map_map]
    simp only [Function.comp_def]
    rw [show (fun d => DailyTotal.date
        { date := d, total_ml := sumLogsBetween (dayStart d) (dayEnd d) logs }) =
        fun d : ℤ => d from rfl]
    rw [List.map_id']
    exact dayList_mem _ _ _
  · intro dt hdt hno
    unfold get_totals_for_days at hdt
    rw [List.mem_map] at hdt
    obtain ⟨d, _, rfl⟩ := hdt
    exact sumLogsBetween_eq_zero _ _ _ hno
  · unfold get_totals_for_days
    rw [List.map_map]
    rw [show (DailyTotal.total_ml ∘ fun d =>
        { date := d, total_ml := sumLogsBetween (dayStart d) (dayEnd d) logs }) =
        fun d : ℤ => sumLogsBetween (dayStart d) (dayEnd d) logs from rfl]
    rw [sum_over_dayList m today logs]
    have : today - ((m + 1 : ℕ) : ℤ) + 1 = today - m := by push_cast; ring
    rw [this]

/-- Witness for `daily_totals_spec` with a 2-day window and one in-window
event. -/
theorem daily_totals_spec_witness :
    (1:ℕ) ≤ 2 ∧
    (get_totals_for_days 2 5 [⟨dayStart 5, 300⟩]).length = 2 ∧
    ((get_totals_for_days 2 5 [⟨dayStart 5, 300⟩]).map DailyTotal.total_ml).sum =
      sumLogsBetween (dayStart (5 - 2 + 1)) (dayEnd 5) [⟨dayStart 5, 300⟩] := by
  have h := daily_totals_spec 2 5 [⟨dayStart 5, 300⟩] (by norm_num)
  exact ⟨by norm_num, h.1, h.2.2.2.2⟩

/-- A row of the `profile` table (identifier and creation time omitted:
`get_profile` only exposes the latest row's payload fields). -/
structure Profile where
  name : String
  age : ℤ
  weight_kg : ℚ
  activity : String
deriving DecidableEq

lemma get_totals_length (n : ℕ) (today : ℤ) (logs : List LogEvent) :
    (get_totals_for_days n today logs).length = n := by
  unfold get_totals_for_days
  rw [List.length_map, dayList_length]

/-- `predictor_adjustment()`: average of the last three of the 7-day
totals (`totals[-3:]`, summed and divided by 3) against the current
profile's goal; `1.0` when no profile exists. -/
def predictor_adjustment (today : ℤ) (logs : List LogEvent)
    (profile : Option Profile) : ℚ :=
  let totals := get_totals_for_days 7 today logs
  let recent := totals.drop (totals.length - 3)
  let avg : ℚ := ((recent.map (fun t => (t.total_ml : ℚ))).sum) / 3
  match profile with
  | none => 1
  | some p =>
    let goal := calculate_goal_ml p.weight_kg (some p.age) p.activity none
    if avg < 0.7 * (goal : ℚ) then 1.2
    else if avg < 0.9 * (goal : ℚ) then 1.05
    else 1

/-- C6: the predictor returns 1 with no profile, is always ≥ 1, equals the
three-way threshold comparison of the mean of the last 3 entries of
`daily_totals(7)` against the profile goal, and returns 1.2 when nothing
was ever logged and the goal is positive. -/
theorem predictor_spec (today : ℤ) (logs : List LogEvent) (p : Profile) :
    predictor_adjustment today logs none = 1 ∧
    1 ≤ predictor_adjustment today logs (some p) ∧
    predictor_adjustment today logs (some p) =
      (let avg : ℚ :=
        (((get_totals_for_days 7 today logs).drop 4).map
          (fun t => (t.total_ml : ℚ))).sum / 3
       let goal := calculate_goal_ml p.weight_kg (some p.age) p.activity none
       if avg < 0.7 * (goal : ℚ) then 1.2
       else if avg < 0.9 * (goal : ℚ) then 1.05 else 1) ∧
    (0 < calculate_goal_ml p.weight_kg (some p.age) p.activity none →
      predictor_adjustment today [] (some p) = 1.2) := by
  refine ⟨rfl, ?_, ?_, ?_⟩
  · simp only [predictor_adjustment]
    split_ifs <;> norm_num
  · simp only [predictor_adjustment, get_totals_length]
  · intro hg
    have h0 : ∀ dt ∈ get_totals_for_days 7 today ([] : List LogEvent),
        dt.total_ml = 0 := by
      intro dt hdt
      unfold get_totals_for_days at hdt
      rw [List.mem_map] at hdt
      obtain ⟨d, _, rfl⟩ := hdt
      rfl
    have havg : ((((get_totals_for_days 7 today ([] : List LogEvent)).drop
        ((get_totals_for_days 7 today ([] : List LogEvent)).length - 3)).map
        (fun t => (t.total_ml : ℚ))).sum) = 0 := by
      apply List.sum_eq_zero
      intro x hx
      rw [List.mem_map] at hx
      obtain ⟨dt, hdt, rfl⟩ := hx
      rw [h0 dt (List.mem_of_mem_drop hdt)]
      norm_num
    have hgq : (0:ℚ) < (calculate_goal_ml p.weight_kg (some p.age) p.activity none : ℚ) := by
      exact_mod_cast hg
    simp only [predictor_adjustment, havg]
    rw [if_pos]
    have : (0:ℚ) < 0.7 * (calculate_goal_ml p.weight_kg (some p.age) p.activity none : ℚ) := by
      nlinarith
    linarith [this]

/-- Witness for `predictor_spec`: empty history, default-ish profile. -/
theorem predictor_spec_witness :
    predictor_adjustment 0 [] (some ⟨"You", 30, 70, "normal"⟩) = 1.2 := by
  have h := predictor_spec 0 [] ⟨"You", 30, 70, "normal"⟩
  apply h.2.2.2
  norm_num [calculate_goal_ml, BASE_ML_PER_KG, pyInt,
    show activityFactor "normal" = 1 from rfl,
    show ageFactor (some 30) = 1 from rfl,
    show tempFactor none = 1 from rfl]

/-- A row of the `badges` table. -/
structure Badge where
  name : String
  earned_at : ℤ
deriving DecidableEq

/-- `SELECT * FROM badges WHERE name = ?` returned a row. -/
def hasBadge (badges : List Badge) (n : String) : Bool :=
  badges.any (fun b => b.name == n)

/-- One guarded insert of `check_badges_and_streaks`: insert `⟨n, now⟩`
when the rule condition holds and no badge of that name exists yet. -/
def awardIfNew (cond : Bool) (n : String) (now : ℤ)
    (badges : List Badge) : List Badge :=
  if cond && !(hasBadge badges n) then badges ++ [⟨n, now⟩] else badges

/-- `check_badges_and_streaks()`: with no profile, return immediately;
otherwise award `7-day-streak` when all 7 recent daily totals reach 75% of
the goal, then award `first-log` when at least one log row exists — each
insert guarded by a name lookup. -/
def check_badges_and_streaks (profile : Option Profile) (logs : List LogEvent)
    (today now : ℤ) (badges : List Badge) : List Badge :=
  match profile with
  | none => badges
  | some p =>
    let totals := get_totals_for_days 7 today logs
    let goal := calculate_goal_ml p.weight_kg (some p.age) p.activity none
    let good_days := (totals.filter
      (fun t => decide ((0.75 : ℚ) * (goal : ℚ) ≤ (t.total_ml : ℚ)))).length
    let b1 := awardIfNew (good_days == 7) "7-day-streak" now badges
    awardIfNew (decide (1 ≤ logs.length)) "first-log" now b1

/-- The durable state: `profile`, `logs` and `badges` tables. -/
structure Store where
  profiles : List Profile
  logs : List LogEvent
  badges : List Badge
deriving DecidableEq

def emptyStore : Store := ⟨[], [], []⟩

/-- `get_profile()`: the most recently inserted profile row, if any. -/
def get_profile (s : Store) : Option Profile := s.profiles.getLast?

/-- `set_profile(...)`: append a new profile row. -/
def set_profile (p : Profile) (s : Store) : Store :=
  { s with profiles := s.profiles ++ [p] }

/-- `log_water_ml(amount_ml)`: insert the event row unconditionally, then
run `check_badges_and_streaks()`. -/
def log_water_ml (today now amount_ml : ℤ) (s : Store) : Store :=
  let s2 : Store := { s with logs := s.logs ++ [⟨now, amount_ml⟩] }
  { s2 with badges :=
      check_badges_and_streaks (get_profile s2) s2.logs today now s2.badges }

/-- The numeric validation of the UI handler `log_custom`: a non-positive
amount is rejected with an error dialog and nothing is logged. -/
def log_custom (today now amt : ℤ) (s : Store) : Option Store :=
  if amt ≤ 0 then none else some (log_water_ml today now amt s)

/-- The store-mutating engine operations. -/
inductive Op where
  | setProf (p : Profile)
  | logWater (today now amount : ℤ)
  | runEval (today now : ℤ)

def applyOp (s : Store) : Op → Store
  | .setProf p => set_profile p s
  | .logWater today now a => log_water_ml today now a s
  | .runEval today now =>
    { s with badges :=
        check_badges_and_streaks (get_profile s) s.logs today now s.badges }

def runOps (ops : List Op) : Store := ops.foldl applyOp emptyStore

lemma hasBadge_append (b : List Badge) (x : Badge) (n : String) :
    hasBadge (b ++ [x]) n = (hasBadge b n || (x.name == n)) := by
  simp [hasBadge]

lemma hasBadge_iff (b : List Badge) (n : String) :
    hasBadge b n = true ↔ n ∈ b.map Badge.name := by
  unfold hasBadge
  rw [List.any_eq_true, List.mem_map]
  constructor
  · rintro ⟨a, ha, hb⟩
    exact ⟨a, ha, by simpa using hb⟩
  · rintro ⟨a, ha, hb⟩
    exact ⟨a, ha, by simpa using hb⟩

lemma hasBadge_eq_false (b : List Badge) (n : String) :
    hasBadge b n = false ↔ n ∉ b.map Badge.name := by
  rw [← hasBadge_iff]
  cases hasBadge b n <;> simp

lemma hasBadge_awardIfNew_self (c : Bool) (n : String) (now : ℤ)
    (b : List Badge) :
    hasBadge (awardIfNew c n now b) n = (hasBadge b n || c) := by
  unfold awardIfNew
  cases c <;> cases h : hasBadge b n <;> simp [h, hasBadge_append]

lemma hasBadge_awardIfNew_ne (c : Bool) (n m : String) (now : ℤ)
    (b : List Badge) (hnm : n ≠ m) :
    hasBadge (awardIfNew c n now b) m = hasBadge b m := by
  unfold awardIfNew
  split
  · rw [hasBadge_append]
    simp [hnm]
  · rfl

lemma awardIfNew_of_has (c : Bool) (n : String) (now : ℤ) (b : List Badge)
    (h : hasBadge b n = true) : awardIfNew c n now b = b := by
  simp [awardIfNew, h]

lemma awardIfNew_false (n : String) (now : ℤ) (b : List Badge) :
    awardIfNew false n now b = b := by
  simp [awardIfNew]

lemma mem_awardIfNew_self (c : Bool) (n : String) (now : ℤ) (b : List Badge)
    (hc : c = true) (h : hasBadge b n = false) :
    n ∈ (awardIfNew c n now b).map Badge.name := by
  simp [awardIfNew, hc, h]

lemma award_pair_idem (c1 c2 : Bool) (now1 now2 : ℤ) (b : List Badge) :
    awardIfNew c2 "first-log" now2
      (awardIfNew c1 "7-day-streak" now2
        (awardIfNew c2 "first-log" now1
          (awardIfNew c1 "7-day-streak" now1 b))) =
    awardIfNew c2 "first-log" now1 (awardIfNew c1 "7-day-streak" now1 b) := by
  have hne : ("first-log" : String) ≠ "7-day-streak" := by decide
  have h1 : awardIfNew c1 "7-day-streak" now2
      (awardIfNew c2 "first-log" now1 (awardIfNew c1 "7-day-streak" now1 b)) =
      awardIfNew c2 "first-log" now1 (awardIfNew c1 "7-day-streak" now1 b) := by
    cases hc : c1 with
    | false => exact awardIfNew_false _ _ _
    | true =>
      apply awardIfNew_of_has
      rw [hasBadge_awardIfNew_ne _ _ _ _ _ hne,
        hasBadge_awardIfNew_self]
      simp
  rw [h1]
  cases hc : c2 with
  | false => exact awardIfNew_false _ _ _
  | true =>
    apply awardIfNew_of_has
    rw [hasBadge_awardIfNew_self]
    simp

/-- C7: re-running the badge evaluator with unchanged profile, log and
badge state never changes the badge set. -/
theorem badges_idempotent (profile : Option Profile) (logs : List LogEvent)
    (today now1 now2 : ℤ) (badges : List Badge) :
    check_badges_and_streaks profile logs today now2
      (check_badges_and_streaks profile logs today now1 badges) =
    check_badges_and_streaks profile logs today now1 badges := by
  cases profile with
  | none => rfl
  | some p =>
    simp only [check_badges_and_streaks]
    exact award_pair_idem _ _ _ _ _

/-- C2 counterexample: one event is logged and `first-log` was never
earned, yet running the evaluator with no current profile awards
nothing — the profile guard covers both rules, not only `7-day-streak`. -/
theorem first_log_cex :
    1 ≤ ([(⟨0, 250⟩ : LogEvent)]).length ∧
    "first-log" ∉ (([] : List Badge).map Badge.name) ∧
    "first-log" ∉
      ((check_badges_and_streaks none [⟨0, 250⟩] 0 0 []).map Badge.name) := by
  refine ⟨by norm_num, by simp, ?_⟩
  rw [show check_badges_and_streaks none [⟨0, 250⟩] 0 0 [] = [] from rfl]
  simp

/-- C2 amended: with a current profile, at least one logged event and
`first-log` not yet earned, the evaluator awards `first-log`; with no
profile it awards nothing at all. -/
theorem first_log_with_profile (p : Profile) (logs : List LogEvent)
    (today now : ℤ) (badges : List Badge) (hlen : 1 ≤ logs.length)
    (hnew : "first-log" ∉ badges.map Badge.name) :
    "first-log" ∈
      ((check_badges_and_streaks (some p) logs today now badges).map
        Badge.name) ∧
    check_badges_and_streaks none logs today now badges = badges := by
  refine ⟨?_, rfl⟩
  have hfalse : hasBadge badges "first-log" = false :=
    (hasBadge_eq_false _ _).mpr hnew
  simp only [check_badges_and_streaks]
  apply mem_awardIfNew_self
  · simpa using hlen
  · rw [hasBadge_awardIfNew_ne _ _ _ _ _ (by decide : ("7-day-streak" : String) ≠ "first-log")]
    exact hfalse

/-- Witness for `first_log_with_profile`. -/
theorem first_log_with_profile_witness :
    "first-log" ∈
      ((check_badges_and_streaks (some ⟨"You", 30, 70, "normal"⟩)
        [⟨0, 250⟩] 0 0 []).map Badge.name) :=
  (first_log_with_profile ⟨"You", 30, 70, "normal"⟩ [⟨0, 250⟩] 0 0 []
    (by norm_num) (by simp)).1

lemma nodup_names_awardIfNew (c : Bool) (n : String) (now : ℤ)
    (b : List Badge) (h : (b.map Badge.name).Nodup) :
    ((awardIfNew c n now b).map Badge.name).Nodup := by
  unfold awardIfNew
  by_cases hcond : (c && !hasBadge b n) = true
  · rw [if_pos hcond, List.map_append]
    have hfalse : hasBadge b n = false := by
      rcases (Bool.and_eq_true _ _).mp hcond with ⟨_, h2⟩
      simpa using h2
    have hnot : n ∉ b.map Badge.name := (hasBadge_eq_false _ _).mp hfalse
    simp [List.nodup_append, h, hnot]
  · rw [if_neg hcond]
    exact h

lemma nodup_names_eval (profile : Option Profile) (logs : List LogEvent)
    (today now : ℤ) (badges : List Badge)
    (h : (badges.map Badge.name).Nodup) :
    ((check_badges_and_streaks profile logs today now badges).map
      Badge.name).Nodup := by
  cases profile with
  | none => exact h
  | some p =>
    simp only [check_badges_and_streaks]
    exact nodup_names_awardIfNew _ _ _ _ (nodup_names_awardIfNew _ _ _ _ h)

/-- C8: starting from the empty store, any sequence of profile writes,
intake writes and evaluator runs leaves every badge name appearing at most
once. -/
theorem badge_names_unique (ops : List Op) (n : String) :
    ((runOps ops).badges.map Badge.name).count n ≤ 1 := by
  have key : ∀ (l : List Op) (s : Store), (s.badges.map Badge.name).Nodup →
      (((l.foldl applyOp s).badges).map Badge.name).Nodup := by
    intro l
    induction l with
    | nil => intro s h; exact h
    | cons op rest ih =>
      intro s h
      rw [List.foldl_cons]
      apply ih
      cases op with
      | setProf p => exact h
      | logWater today now a => exact nodup_names_eval _ _ _ _ _ h
      | runEval today now => exact nodup_names_eval _ _ _ _ _ h
  have hnodup := key ops emptyStore (by simp [emptyStore])
  exact List.nodup_iff_count_le_one.mp hnodup n

/-- C3 counterexample: `log_water_ml` accepts a non-positive amount — the
store changes and an event with `amount_ml = -5` is persisted, so the
claimed `InvalidAmount` rejection and positivity invariant fail. -/
theorem log_water_cex :
    (log_water_ml 0 0 (-5) emptyStore).logs ≠ emptyStore.logs ∧
    (⟨0, -5⟩ : LogEvent) ∈ (log_water_ml 0 0 (-5) emptyStore).logs := by
  constructor
  · rw [show (log_water_ml 0 0 (-5) emptyStore).logs = [⟨0, -5⟩] from rfl]
    simp [emptyStore]
  · rw [show (log_water_ml 0 0 (-5) emptyStore).logs = [⟨0, -5⟩] from rfl]
    simp

/-- C3 amended: `log_water_ml` itself never validates — it appends an
event row for every amount; the `amount_ml > 0` check lives in the UI
handler `log_custom`, which rejects non-positive input without touching
the store and otherwise delegates to `log_water_ml`. -/
theorem log_water_amended (today now a : ℤ) (s : Store) :
    (log_water_ml today now a s).logs = s.logs ++ [⟨now, a⟩] ∧
    (a ≤ 0 → log_custom today now a s = none) ∧
    (0 < a → log_custom today now a s = some (log_water_ml today now a s)) := by
  refine ⟨rfl, ?_, ?_⟩
  · intro h
    simp [log_custom, h]
  · intro h
    rw [log_custom, if_neg (by omega)]

/-- Witness for `log_water_amended`. -/
theorem log_water_amended_witness :
    (log_water_ml 0 0 (-3) emptyStore).logs = emptyStore.logs ++ [⟨0, -3⟩] ∧
    log_custom 0 0 (-3) emptyStore = none ∧
    log_custom 0 0 5 emptyStore = some (log_water_ml 0 0 5 emptyStore) := by
  refine ⟨(log_water_amended 0 0 (-3) emptyStore).1, ?_, ?_⟩
  · exact (log_water_amended 0 0 (-3) emptyStore).2.1 (by norm_num)
  · exact (log_water_amended 0 0 5 emptyStore).2.2 (by norm_num)

/-!
Reminder scheduler. `enabled` is `self.reminder_enabled`; `pending` says a
Tk `after` job is armed (`self.reminder_job` is live); `popupOpen` says a
reminder popup (with its Snooze button) is on screen. One action per event
loop step:
* `start` (`start_reminders`): sets `reminder_enabled = True` and calls
  `schedule_next_reminder`, which arms a timer since the flag is set.
* `stop` (`stop_reminders`): clears the flag and cancels any pending job.
  It does not close an already-open popup.
* `snooze` (`snooze`): only reachable from an open popup's button; it
  destroys the popup, cancels any pending job and unconditionally arms a
  fresh timer — without consulting `reminder_enabled`.
* `fire`: the event loop delivers a pending timer; `show_reminder` runs
  (the observable callback), opens a popup, and calls
  `schedule_next_reminder`, which re-arms only if `reminder_enabled`.
-/

structure SchedState where
  enabled : Bool
  pending : Bool
  popupOpen : Bool
deriving DecidableEq

inductive SchedAction where
  | start
  | stop
  | snooze
  | fire
deriving DecidableEq

/-- One scheduler step; the `Bool` records whether `show_reminder` ran. -/
def schedStep (s : SchedState) : SchedAction → SchedState × Bool
  | .start => (⟨true, true, s.popupOpen⟩, false)
  | .stop => (⟨false, false, s.popupOpen⟩, false)
  | .snooze => if s.popupOpen then (⟨s.enabled, true, false⟩, false) else (s, false)
  | .fire => if s.pending then (⟨s.enabled, s.enabled, true⟩, true) else (s, false)

/-- Run a sequence of scheduler interactions; the `Bool` is whether any
reminder callback executed along the way. -/
def schedRun (s : SchedState) : List SchedAction → SchedState × Bool
  | [] => (s, false)
  | a :: rest =>
    let r1 := schedStep s a
    let r2 := schedRun r1.1 rest
    (r2.1, r1.2 || r2.2)

/-- Initial state: reminders disabled, no timer, no popup. -/
def schedInit : SchedState := ⟨false, false, false⟩

def schedStateAfter (l : List SchedAction) : SchedState :=
  (schedRun schedInit l).1

lemma schedRun_cons (s : SchedState) (a : SchedAction) (l : List SchedAction) :
    schedRun s (a :: l) =
      ((schedRun (schedStep s a).1 l).1,
        (schedStep s a).2 || (schedRun (schedStep s a).1 l).2) := rfl

/-- C4 counterexample: start, let one reminder fire (its popup re-arms the
chain and stays open), stop, then press Snooze on the stale popup — the
snoozed timer fires even though `stop` was the last scheduler control and
`start` was never called again. -/
theorem stop_no_fire_cex :
    SchedAction.start ∉ [SchedAction.snooze, SchedAction.fire] ∧
    (schedRun
      (schedStateAfter
        ([SchedAction.start, SchedAction.fire] ++ [SchedAction.stop]))
      [SchedAction.snooze, SchedAction.fire]).2 = true := by
  constructor
  · decide
  · rfl

lemma schedRun_no_fire (post : List SchedAction) :
    ∀ s : SchedState, s.enabled = false → s.pending = false →
      SchedAction.start ∉ post → SchedAction.snooze ∉ post →
      (schedRun s post).2 = false := by
  induction post with
  | nil => intro s _ _ _ _; rfl
  | cons a rest ih =>
    intro s hen hpend hstart hsnooze
    rw [schedRun_cons]
    have hstart' : SchedAction.start ∉ rest := fun h => hstart (by simp [h])
    have hsnooze' : SchedAction.snooze ∉ rest := fun h => hsnooze (by simp [h])
    cases a with
    | start => exact absurd (by simp) hstart
    | snooze => exact absurd (by simp) hsnooze
    | stop =>
      simp only [schedStep]
      rw [ih _ rfl rfl hstart' hsnooze']
      rfl
    | fire =>
      simp only [schedStep, hpend]
      rw [if_neg (by simp)]
      rw [ih _ hen hpend hstart' hsnooze']
      rfl

lemma schedRun_append_state (l1 l2 : List SchedAction) (s : SchedState) :
    (schedRun s (l1 ++ l2)).1 = (schedRun (schedRun s l1).1 l2).1 := by
  induction l1 generalizing s with
  | nil => rfl
  | cons a rest ih =>
    rw [List.cons_append, schedRun_cons, schedRun_cons]
    exact ih _

/-- C4 amended: after `stop()`, no reminder callback runs as long as
neither `start` nor a (stale-popup) `snooze` occurs; `snooze` re-arms the
timer unconditionally, so only those two actions can restart the chain. -/
theorem stop_no_fire (pre post : List SchedAction)
    (h1 : SchedAction.start ∉ post) (h2 : SchedAction.snooze ∉ post) :
    (schedRun (schedStateAfter (pre ++ [SchedAction.stop])) post).2 = false := by
  have hstate : (schedStateAfter (pre ++ [SchedAction.stop])).enabled = false ∧
      (schedStateAfter (pre ++ [SchedAction.stop])).pending = false := by
    unfold schedStateAfter
    rw [schedRun_append_state]
    exact ⟨rfl, rfl⟩
  exact schedRun_no_fire post _ hstate.1 hstate.2 h1 h2

/-- Witness for `stop_no_fire`: start immediately followed by stop, then
two timer deliveries — no callback runs. -/
theorem stop_no_fire_witness :
    SchedAction.start ∉ [SchedAction.fire, SchedAction.fire] ∧
    SchedAction.snooze ∉ [SchedAction.fire, SchedAction.fire] ∧
    (schedRun (schedStateAfter ([SchedAction.start] ++ [SchedAction.stop]))
      [SchedAction.fire, SchedAction.fire]).2 = false := by
  refine ⟨by decide, by decide, ?_⟩
  exact stop_no_fire [SchedAction.start] [SchedAction.fire, SchedAction.fire]
    (by decide) (by decide)

/-!
No-profile defaults of the UI consumers (`refresh_ui`, `show_reminder`,
`draw_progress_ring`).
-/

/-- The daily goal `refresh_ui` renders: profile goal, or 2000 without a
profile. -/
def refresh_ui_goal (profile : Option Profile) : ℤ :=
  match profile with
  | some p => calculate_goal_ml p.weight_kg (some p.age) p.activity none
  | none => 2000

/-- The ring fraction of `draw_progress_ring` as called by `refresh_ui`:
`min(1.0, consumed/goal) if goal > 0 else 0`. -/
def refresh_ui_ring_pct (profile : Option Profile) (consumed : ℤ) : ℚ :=
  let goal := refresh_ui_goal profile
  if 0 < goal then min 1 ((consumed : ℚ) / (goal : ℚ)) else 0

/-- The daily goal `show_reminder` uses: profile goal, or 2000 without a
profile. -/
def show_reminder_goal (profile : Option Profile) : ℤ :=
  match profile with
  | some p => calculate_goal_ml p.weight_kg (some p.age) p.activity none
  | none => 2000

/-- `pct = int(min(100, (today_total/goal)*100)) if goal > 0 else 0`. -/
def show_reminder_pct (profile : Option Profile) (today_total : ℤ) : ℤ :=
  let goal := show_reminder_goal profile
  if 0 < goal then pyInt (min 100 ((today_total : ℚ) / (goal : ℚ) * 100)) else 0

/-- The message branch of `show_reminder`: `pct >= 100` selects the
"reached your goal" message, otherwise the "at X% of your daily goal"
message. -/
def show_reminder_reached (profile : Option Profile) (today_total : ℤ) : Bool :=
  decide (100 ≤ show_reminder_pct profile today_total)

/-- C10: with no current profile, both `refresh_ui` and `show_reminder`
fall back to a 2000 ml goal, and the displayed percentage and message
branch are computed against that constant. -/
theorem default_goal_2000 (t : ℤ) :
    refresh_ui_goal none = 2000 ∧
    show_reminder_goal none = 2000 ∧
    refresh_ui_ring_pct none t = min 1 ((t : ℚ) / 2000) ∧
    show_reminder_pct none t = pyInt (min 100 ((t : ℚ) / 2000 * 100)) ∧
    show_reminder_reached none t =
      decide (100 ≤ pyInt (min 100 ((t : ℚ) / 2000 * 100))) := by
  refine ⟨rfl, rfl, ?_, ?_, ?_⟩
  · simp only [refresh_ui_ring_pct, refresh_ui_goal]
    rw [if_pos (by norm_num)]
    norm_num
  · simp only [show_reminder_pct, show_reminder_goal]
    rw [if_pos (by norm_num)]
    norm_num
  · simp only [show_reminder_reached, show_reminder_pct, show_reminder_goal]
    rw [if_pos (by norm_num)]
    norm_num

end WaterBuddy
